import Mathlib

/-! ESP32 Foo-Bar countdown: a shallow embedding of `main/main.cpp`.

The development embeds the primality test `is_prime`, the coordinator loop
`idleTask`, the two classifier loops `foo_task` and `bar_task`, and the input
handler `uart_event_task`, and settles the properties claimed for them.

Machine integers (`uint32_t`) are natural numbers reduced modulo `2 ^ 32`
where the code can overflow.
-/

namespace FooBar

/-! ## Constants (`#define`s of `main.cpp`) -/

/-- The constant `MAX_NUM` (line 48): the maximum count of the counting semaphore. -/
def MAX_NUM : Nat := 16777216

/-- The constant `QUEUE_LENGTH` (line 51): the capacity of `xQueue`. -/
def QUEUE_LENGTH : Nat := 8

/-- The number of values of `uint32_t`. -/
def U32 : Nat := 4294967296

/-! ## `is_prime` (lines 89-95) -/

/-- What a call of `is_prime` can do: return a boolean, divide by zero
(`n % i` with `i == 0`), or still be running when the fuel is used up. -/
inductive Outcome where
  | ret (b : Bool)
  | divByZero
  | outOfFuel
  deriving DecidableEq, Repr

/-- What one pass through the `for` loop of `is_prime` does, given the loop
variable `i`: go on with a new `i`, leave the function with a result, or trap. -/
inductive LoopStep where
  | next (i : Nat)
  | done (b : Bool)
  | trap
  deriving DecidableEq, Repr

/-- One pass of `for (uint32_t i = 2; i * i <= n; ++i) { if (n % i == 0) return false; }`
starting at the test `i * i <= n`. The product and the increment are `uint32_t`
operations, so both are reduced modulo `2 ^ 32`. -/
def is_prime_step (n i : Nat) : LoopStep :=
  if (i * i) % U32 ≤ n then
    if i = 0 then LoopStep.trap
    else if n % i = 0 then LoopStep.done false
    else LoopStep.next ((i + 1) % U32)
  else LoopStep.done true

/-- The `for` loop of `is_prime`, run for at most `fuel` passes from loop variable `i`. -/
def is_prime_loop : Nat → Nat → Nat → Outcome
  | 0, _, _ => Outcome.outOfFuel
  | fuel + 1, n, i =>
    match is_prime_step n i with
    | LoopStep.next j => is_prime_loop fuel n j
    | LoopStep.done b => Outcome.ret b
    | LoopStep.trap => Outcome.divByZero

/-- The function `is_prime(uint32_t n)`, its loop limited to `fuel` passes. -/
def is_prime (fuel n : Nat) : Outcome :=
  if n ≤ 1 then Outcome.ret false
  else is_prime_loop fuel n 2

/-- The value of the loop variable `i` at the start of pass number `k` (counted
from 0) of the loop of `is_prime(n)`, when the loop gets that far. -/
def is_prime_var (n : Nat) : Nat → Option Nat
  | 0 => some 2
  | k + 1 =>
    match is_prime_var n k with
    | some i =>
      (match is_prime_step n i with
       | LoopStep.next j => some j
       | _ => none)
    | none => none

/-- No number among `i, i + 1, ..., i + k - 1` divides `n`. A checker used to
certify primality of one concrete number by plain trial division. -/
def noDivisor : Nat → Nat → Nat → Bool
  | 0, _, _ => true
  | k + 1, n, i => if n % i = 0 then false else noDivisor k n (i + 1)

/-- The checker `noDivisor` run on `b` consecutive blocks of 256 candidates. -/
def noDivBlocks : Nat → Nat → Nat → Bool
  | 0, _, _ => true
  | b + 1, n, i => noDivisor 256 n i && noDivBlocks b n (i + 256)

/-! ## Shared state and the UART -/

/-- The state the tasks share: the contents of `xQueue` (oldest entry first),
the count of the counting semaphore `xSemaphore`, the bit `EVENT_FLAG_1` of
`eventGroup`, and the byte chunks handed to `uart_write_bytes` so far (oldest
first, one chunk per call). -/
structure Shared where
  inbox : List Nat
  count : Nat
  flag : Bool
  uart : List (List Char)
  deriving DecidableEq, Repr

/-- The character with code 0 that ends a C string. -/
def NUL : Char := Char.ofNat 0

/-- The bytes of a C string literal or of a buffer filled by `snprintf`: the
characters followed by the terminating NUL. -/
def cstr (s : List Char) : List Char := s ++ [NUL]

/-- The call `uart_write_bytes(UART_NUM_2, src, size)`: the first `size` bytes
stored at `src` are sent as one chunk. -/
def uart_write_bytes (s : Shared) (src : List Char) (size : Nat) : Shared :=
  { s with uart := s.uart ++ [src.take size] }

/-- The conversion `%lu` of `snprintf`: the decimal digits of `c`. -/
def fmt_lu (c : Nat) : List Char := Nat.toDigits 10 c

/-- The text `snprintf` produces in `foo_task` (lines 182-186). -/
def foo_message (c : Nat) (prime : Bool) : List Char :=
  if prime then "Foo ".toList ++ fmt_lu c ++ " Prime\n".toList
  else "Foo ".toList ++ fmt_lu c ++ "\n".toList

/-- The text `snprintf` produces in `bar_task` (lines 236-240). -/
def bar_message (c : Nat) (prime : Bool) : List Char :=
  if prime then "Bar ".toList ++ fmt_lu c ++ " Prime\n".toList
  else "Bar ".toList ++ fmt_lu c ++ "\n".toList

/-- The text `snprintf` produces in `uart_event_task` (line 291). -/
def received_message (number : Nat) : List Char :=
  "Received ".toList ++ fmt_lu number ++ "\n".toList

/-- A call `is_prime(c)` made by a worker. The loop is given `c` passes; it
needs at most `c - 1` of them to return. -/
def is_prime_call (c : Nat) : Option Bool :=
  match is_prime c c with
  | Outcome.ret b => some b
  | _ => none

/-- The call `uxQueueSpacesAvailable(xQueue)`. -/
def uxQueueSpacesAvailable (s : Shared) : Nat := QUEUE_LENGTH - s.inbox.length

/-! ## The workers and the coordinator as step functions

Each step is one statement that reads or writes the shared count or the event
flag, or writes a line to the UART. A step that cannot be taken (a blocked
`xSemaphoreTake`) is `none`. The calls of `vTaskDelay` are not steps. -/

/-- Where `foo_task` stands in its loop, with its variable `c`. -/
inductive FooPc where
  | top
  | check (c : Nat)
  | emit (c : Nat)
  | take
  | recheck
  | clear
  deriving DecidableEq, Repr

/-- One step of `foo_task` (lines 172-201). -/
def foo_step (pc : FooPc) (s : Shared) : Option (FooPc × Shared) :=
  match pc with
  | FooPc.top => some (FooPc.check s.count, s)
  | FooPc.check c =>
    if s.flag then
      if c % 2 = 0 then some (FooPc.emit c, s) else some (FooPc.top, s)
    else some (FooPc.top, s)
  | FooPc.emit c =>
    match is_prime_call c with
    | some p =>
      let msg := foo_message c p
      let s1 := uart_write_bytes s (cstr msg) msg.length
      if c ≠ 0 then some (FooPc.take, s1) else some (FooPc.recheck, s1)
    | none => none
  | FooPc.take =>
    if s.count = 0 then none else some (FooPc.top, { s with count := s.count - 1 })
  | FooPc.recheck =>
    if s.flag then some (FooPc.clear, s) else some (FooPc.top, s)
  | FooPc.clear => some (FooPc.top, { s with flag := false })

/-- Where `bar_task` stands in its loop, with its variable `c`. -/
inductive BarPc where
  | top
  | check (c : Nat)
  | take (c : Nat)
  | emit (c : Nat)
  deriving DecidableEq, Repr

/-- One step of `bar_task` (lines 224-246). The semaphore is taken (line 230)
before the line is written (line 241). -/
def bar_step (pc : BarPc) (s : Shared) : Option (BarPc × Shared) :=
  match pc with
  | BarPc.top => some (BarPc.check s.count, s)
  | BarPc.check c =>
    if s.flag then
      if c % 2 = 1 then some (BarPc.take c, s) else some (BarPc.top, s)
    else some (BarPc.top, s)
  | BarPc.take c =>
    if s.count = 0 then none else some (BarPc.emit c, { s with count := s.count - 1 })
  | BarPc.emit c =>
    match is_prime_call c with
    | some p =>
      let msg := bar_message c p
      some (BarPc.top, uart_write_bytes s (cstr msg) msg.length)
    | none => none

/-- The FreeRTOS call `xSemaphoreCreateCounting(uxMaxCount, uxInitialCount)`,
which is not part of this repository: the count of the semaphore it creates.
A semaphore is created, with the initial count, only when the maximum is not 0
and the initial count does not exceed it; otherwise the library fails an
assertion or returns a NULL handle, and there is no semaphore (`none`). -/
def xSemaphoreCreateCounting (uxMaxCount uxInitialCount : Nat) : Option Nat :=
  if uxMaxCount ≠ 0 ∧ uxInitialCount ≤ uxMaxCount then some uxInitialCount else none

/-- Where `idleTask` stands in its loop; `failed` is where it stands after a
call of `xSemaphoreCreateCounting` that created no semaphore. -/
inductive IdlePc where
  | top
  | spaces
  | setflag
  | recv
  | create
  | failed
  deriving DecidableEq, Repr

/-- The coordinator: its place in the loop and its variable `uReceivedValue`. -/
structure Idle where
  pc : IdlePc
  uReceivedValue : Nat
  deriving DecidableEq, Repr

/-- One step of the loop of `idleTask` (lines 126-144). The step `create` is
`vSemaphoreDelete` followed by `xSemaphoreCreateCounting(MAX_NUM, uReceivedValue)`
(lines 131-134): when the call creates a semaphore, its count is the new shared
count; when it creates none (`uReceivedValue > MAX_NUM`, which the code does not
check), the old semaphore is gone and the task is `failed`, where it stays. -/
def idle_step (t : Idle) (s : Shared) : Idle × Shared :=
  match t.pc with
  | IdlePc.top =>
    if ¬ s.flag then ({ t with pc := IdlePc.spaces }, s) else ({ t with pc := IdlePc.top }, s)
  | IdlePc.spaces =>
    if uxQueueSpacesAvailable s < 8 then ({ t with pc := IdlePc.setflag }, s)
    else ({ t with pc := IdlePc.top }, s)
  | IdlePc.setflag => ({ t with pc := IdlePc.recv }, { s with flag := true })
  | IdlePc.recv =>
    match s.inbox with
    | v :: rest => ({ pc := IdlePc.create, uReceivedValue := v }, { s with inbox := rest })
    | [] => ({ t with pc := IdlePc.create }, s)
  | IdlePc.create =>
    match xSemaphoreCreateCounting MAX_NUM t.uReceivedValue with
    | some c => ({ t with pc := IdlePc.top }, { s with count := c })
    | none => ({ t with pc := IdlePc.failed }, s)
  | IdlePc.failed => (t, s)

/-- The whole system: shared state and the three tasks. -/
structure Sys where
  sh : Shared
  idle : Idle
  foo : FooPc
  bar : BarPc
  deriving DecidableEq, Repr

/-- The tasks of the step model. -/
inductive TaskId where
  | idle
  | foo
  | bar
  deriving DecidableEq, Repr

/-- One step of the system: task `t` takes its next step, if it can. Once
`idleTask` is `failed` there is no semaphore to read or take, and no task has
a next step. -/
def sys_step (t : TaskId) (s : Sys) : Option Sys :=
  if s.idle.pc = IdlePc.failed then none else
  match t with
  | TaskId.idle =>
    let r := idle_step s.idle s.sh
    some { s with idle := r.1, sh := r.2 }
  | TaskId.foo =>
    match foo_step s.foo s.sh with
    | some r => some { s with foo := r.1, sh := r.2 }
    | none => none
  | TaskId.bar =>
    match bar_step s.bar s.sh with
    | some r => some { s with bar := r.1, sh := r.2 }
    | none => none

/-- The system run along a schedule, a list of the tasks that step in turn. -/
def run : List TaskId → Sys → Option Sys
  | [], s => some s
  | t :: ts, s =>
    match sys_step t s with
    | some s1 => run ts s1
    | none => none

/-- The state after start-up: `xQueue` holds `inbox`, the semaphore was created
with count 0, the event group with no bit set, and every task is at the top of
its loop. -/
def sys_init (inbox : List Nat) : Sys :=
  { sh := { inbox := inbox, count := 0, flag := false, uart := [] },
    idle := { pc := IdlePc.top, uReceivedValue := 0 },
    foo := FooPc.top, bar := BarPc.top }

/-- The state in which a countdown from `v` starts: the flag is set, the count
is `v`, and both workers are at the top of their loops. -/
def countdown_start (v : Nat) : Sys :=
  { sh := { inbox := [], count := v, flag := true, uart := [] },
    idle := { pc := IdlePc.top, uReceivedValue := v },
    foo := FooPc.top, bar := BarPc.top }

/-- One iteration of the loop of `foo_task` run without interruption: steps of
`foo_task` from `pc` until it is back at the top of its loop. -/
def foo_iteration_from : Nat → FooPc → Shared → Option Shared
  | 0, _, _ => none
  | k + 1, pc, s =>
    match foo_step pc s with
    | some (FooPc.top, s1) => some s1
    | some (pc1, s1) => foo_iteration_from k pc1 s1
    | none => none

/-- One iteration of the loop of `foo_task`, from the top of the loop; an
iteration has at most five steps. -/
def foo_iteration (s : Shared) : Option Shared := foo_iteration_from 5 FooPc.top s

/-- Steps of `idleTask` from `t` until it is back at the top of its loop;
there is no result when the task ends up `failed`. -/
def idle_poll_from : Nat → Idle → Shared → Option (Idle × Shared)
  | 0, _, _ => none
  | k + 1, t, s =>
    let r := idle_step t s
    if r.1.pc = IdlePc.top then some r
    else if r.1.pc = IdlePc.failed then none
    else idle_poll_from k r.1 r.2

/-- The coordinator after `k` of its steps, run without interruption. -/
def idle_steps : Nat → Idle → Shared → Idle × Shared
  | 0, t, s => (t, s)
  | k + 1, t, s => idle_steps k (idle_step t s).1 (idle_step t s).2

/-- One poll of the loop of `idleTask` run without interruption; a poll has at
most five steps. -/
def idleTask_poll (uReceivedValue : Nat) (s : Shared) : Option (Idle × Shared) :=
  idle_poll_from 5 { pc := IdlePc.top, uReceivedValue := uReceivedValue } s

/-- The line the claim expects for the value `c`: `Foo` for an even value and
`Bar` for an odd one, with ` Prime` exactly when `is_prime` says so. -/
def expected_line (c : Nat) : Option (List Char) :=
  match is_prime_call c with
  | some p => some (if c % 2 = 0 then foo_message c p else bar_message c p)
  | none => none

/-- The lines the claim expects for a countdown from `v`: those of `v, v - 1, ..., 0`. -/
def expected_lines : Nat → List (Option (List Char))
  | 0 => [expected_line 0]
  | v + 1 => expected_line (v + 1) :: expected_lines v

/-! ## Concrete states and schedules used below -/

/-- A schedule from `countdown_start 1`: `bar_task` reads the count 1, sees the
flag and takes the semaphore; then `foo_task` reads the count 0, sees the flag,
writes its line and tests the flag again. One more step of `foo_task` clears
the flag. -/
def sched_bar_take_then_foo : List TaskId :=
  [TaskId.bar, TaskId.bar, TaskId.bar, TaskId.foo, TaskId.foo, TaskId.foo, TaskId.foo]

/-- A schedule from `sys_init [1]`: `idleTask` dispatches the entry 1 in five
steps, then the workers run as in `sched_bar_take_then_foo` and `foo_task`
clears the flag. -/
def sched_dispatch_then_race : List TaskId :=
  [TaskId.idle, TaskId.idle, TaskId.idle, TaskId.idle, TaskId.idle] ++
  sched_bar_take_then_foo ++ [TaskId.foo]

/-- A shared state whose queue holds `QUEUE_LENGTH` entries. -/
def full_inbox_state : Shared :=
  { inbox := [1, 2, 3, 4, 5, 6, 7, 8], count := 0, flag := false, uart := [] }

/-- A shared state with an empty queue. -/
def empty_inbox_state : Shared :=
  { inbox := [], count := 0, flag := false, uart := [] }

/-- A shared state in the middle of a countdown, with entries waiting. -/
def mid_countdown_state : Shared :=
  { inbox := [9, 4], count := 3, flag := true, uart := ["Foo 4\n".toList] }

/-- A schedule from `countdown_start 5` in which each worker finishes its
iteration before the other one moves: four steps of `bar_task` for an odd
value, four steps of `foo_task` for an even one, five for the value 0. -/
def sched_in_turn_5 : List TaskId :=
  [TaskId.bar, TaskId.bar, TaskId.bar, TaskId.bar, TaskId.foo, TaskId.foo, TaskId.foo, TaskId.foo,
   TaskId.bar, TaskId.bar, TaskId.bar, TaskId.bar, TaskId.foo, TaskId.foo, TaskId.foo, TaskId.foo,
   TaskId.bar, TaskId.bar, TaskId.bar, TaskId.bar,
   TaskId.foo, TaskId.foo, TaskId.foo, TaskId.foo, TaskId.foo]

/-- The C library's `isspace` in the C locale: space, and the codes 9 to 13. -/
def isspace (c : Char) : Bool := c.toNat = 32 || (9 ≤ c.toNat && c.toNat ≤ 13)

/-- The C library's `isdigit`. -/
def isdigit (c : Char) : Bool := 48 ≤ c.toNat && c.toNat ≤ 57

/-- The value of the longest run of decimal digits at the start of the text,
read after the digits whose value is `acc`. -/
def atoi_digits : List Char → Nat → Nat
  | [], acc => acc
  | c :: cs, acc => if isdigit c then atoi_digits cs (acc * 10 + (c.toNat - 48)) else acc

/-- The C library's `atoi` on the bytes of a C string: leading white space is
skipped, then an optional sign and the decimal digits that follow are read;
anything else ends the number, and a text with no digits gives 0. The result
is an `int`; a value out of the range of `int` is clamped to it, as the
`strtol` behind `atoi` does. -/
def atoi (s : List Char) : Int :=
  match s.dropWhile isspace with
  | [] => 0
  | c :: cs =>
    if c.toNat = 45 then max (-2147483648) (-(atoi_digits cs 0 : Int))
    else if c.toNat = 43 then min 2147483647 (atoi_digits cs 0 : Int)
    else min 2147483647 (atoi_digits (c :: cs) 0 : Int)

/-- The conversion of an `int` to `uint32_t`: reduction modulo `2 ^ 32`. -/
def to_uint32 (x : Int) : Nat := (x % 4294967296).toNat

/-- An event delivered on `uart_queue`: received data (`UART_DATA`, with the
bytes `uart_read_bytes` then puts into the zeroed buffer), or any other event. -/
inductive UartEvent where
  | data (bytes : List Char)
  | other
  deriving DecidableEq, Repr

/-- The call `xQueueSend(xQueue, &number, 0)`: the value is appended when the
queue has room (`pdPASS`, here `true`), and the queue is left alone when it has not. -/
def xQueueSend (s : Shared) (number : Nat) : Shared × Bool :=
  if s.inbox.length < QUEUE_LENGTH then ({ s with inbox := s.inbox ++ [number] }, true)
  else (s, false)

/-- What `uart_event_task` does with one event (lines 276-302): the new shared
state, and whether `esp_restart()` was called. -/
def uart_event_task_step (e : UartEvent) (s : Shared) : Shared × Bool :=
  match e with
  | UartEvent.data bytes =>
    let number := to_uint32 (atoi bytes)
    if number ≠ 0 then
      if uxQueueSpacesAvailable s = 0 then
        (uart_write_bytes s (cstr "Currently full\n".toList) 16, false)
      else
        let r := xQueueSend s number
        if r.2 then
          let msg := received_message number
          (uart_write_bytes r.1 (cstr msg) msg.length, false)
        else (r.1, false)
    else (s, true)
  | UartEvent.other => (s, false)

/-! ## Facts about `is_prime` -/

/-- The three things a pass of the loop can do when `2 ≤ i ≤ n < 2 ^ 32`: it
never traps, and when it goes on, the new loop variable is `i + 1 ≤ n`. -/
theorem is_prime_step_cases (n i : Nat) (hi : 2 ≤ i) (hin : i ≤ n) (hn : n < U32) :
    (is_prime_step n i = LoopStep.done true ∧ n < (i * i) % U32) ∨
    (is_prime_step n i = LoopStep.done false ∧ (i * i) % U32 ≤ n ∧ n % i = 0) ∨
    (is_prime_step n i = LoopStep.next (i + 1) ∧ (i * i) % U32 ≤ n ∧ n % i ≠ 0 ∧ i + 1 ≤ n) := by
  unfold is_prime_step
  by_cases h1 : (i * i) % U32 ≤ n
  · have hi0 : i ≠ 0 := by omega
    by_cases h2 : n % i = 0
    · right; left
      simp [h1, hi0, h2]
    · right; right
      have hne : i ≠ n := by
        intro h
        apply h2
        rw [h]
        exact Nat.mod_self n
      have hlt : i + 1 ≤ n := by omega
      have hmod : (i + 1) % U32 = i + 1 := Nat.mod_eq_of_lt (by omega)
      simp [h1, hi0, h2, hmod, hlt]
  · left
    simp [h1]
    omega

/-- The loop returns within `n - i + 1` passes when started at `2 ≤ i ≤ n`. -/
theorem is_prime_loop_returns (n : Nat) (hn : n < U32) :
    ∀ fuel i, 2 ≤ i → i ≤ n → n - i < fuel → ∃ b, is_prime_loop fuel n i = Outcome.ret b := by
  intro fuel
  induction fuel with
  | zero => intro i _ _ h; omega
  | succ f ih =>
    intro i hi hin hf
    rcases is_prime_step_cases n i hi hin hn with h | h | h
    · exact ⟨true, by simp [is_prime_loop, h.1]⟩
    · exact ⟨false, by simp [is_prime_loop, h.1]⟩
    · obtain ⟨b, hb⟩ := ih (i + 1) (by omega) h.2.2.2 (by omega)
      exact ⟨b, by simp [is_prime_loop, h.1, hb]⟩

/-- While the loop is running, pass number `k` sees the loop variable `k + 2`,
which is at most `n`: the variable never wraps around. -/
theorem is_prime_var_bound (n : Nat) (h2 : 2 ≤ n) (hn : n < U32) :
    ∀ k i, is_prime_var n k = some i → i = k + 2 ∧ i ≤ n := by
  intro k
  induction k with
  | zero =>
    intro i h
    simp [is_prime_var] at h
    omega
  | succ k ih =>
    intro i h
    simp only [is_prime_var] at h
    cases hk : is_prime_var n k with
    | none => simp [hk] at h
    | some j =>
      obtain ⟨hj, hjn⟩ := ih j hk
      rw [hk] at h
      rcases is_prime_step_cases n j (by omega) hjn hn with c | c | c
      · simp [c.1] at h
      · simp [c.1] at h
      · simp [c.1] at h
        omega

/-- Below `65535 ^ 2` the loop computes primality: started at `i = k + 1` with no
divisor of `n` among `2, ..., k` and `k * k ≤ n`, it returns whether `n` is prime. -/
theorem is_prime_loop_correct (n : Nat) (h2 : 2 ≤ n) (hn : n < 65535 * 65535) :
    ∀ fuel k, 1 ≤ k → k * k ≤ n → (∀ j, 2 ≤ j → j ≤ k → ¬ j ∣ n) → n - (k + 1) < fuel →
      is_prime_loop fuel n (k + 1) = Outcome.ret (decide (Nat.Prime n)) := by
  intro fuel
  induction fuel with
  | zero => intro k _ _ _ h; omega
  | succ f ih =>
    intro k hk hkk hdiv hf
    have hk65 : k < 65535 := by
      by_contra hge
      have : 65535 * 65535 ≤ k * k := Nat.mul_le_mul (by omega) (by omega)
      omega
    have hkn : k + 1 ≤ n := by
      rcases Nat.lt_or_ge k 2 with h | h
      · omega
      · have : 2 * k ≤ k * k := Nat.mul_le_mul_right k h
        omega
    have hsq : (k + 1) * (k + 1) < U32 := by
      have : (k + 1) * (k + 1) ≤ 65535 * 65535 := Nat.mul_le_mul (by omega) (by omega)
      unfold U32
      omega
    have hmod : ((k + 1) * (k + 1)) % U32 = (k + 1) * (k + 1) := Nat.mod_eq_of_lt hsq
    have hnU : n < U32 := by unfold U32; omega
    rcases is_prime_step_cases n (k + 1) (by omega) hkn hnU with c | c | c
    · -- the loop test fails: every candidate up to the square root was tried
      have hp : Nat.Prime n := by
        rw [Nat.prime_def_le_sqrt]
        refine ⟨h2, fun m hm2 hms => hdiv m hm2 ?_⟩
        have hmm : m * m ≤ n := Nat.le_sqrt.mp hms
        by_contra hmk
        have : (k + 1) * (k + 1) ≤ m * m := Nat.mul_le_mul (by omega) (by omega)
        omega
      simp [is_prime_loop, c.1, hp]
    · -- a divisor `k + 1 < n` was found
      have hdvd : (k + 1) ∣ n := Nat.dvd_of_mod_eq_zero c.2.2
      have hlt : k + 1 < n := by
        have : 2 * (k + 1) ≤ (k + 1) * (k + 1) := Nat.mul_le_mul_right (k + 1) (by omega)
        omega
      have hp : ¬ Nat.Prime n := by
        intro hp
        rcases (Nat.dvd_prime hp).mp hdvd with h | h <;> omega
      simp [is_prime_loop, c.1, hp]
    · have hdiv2 : ∀ j, 2 ≤ j → j ≤ k + 1 → ¬ j ∣ n := by
        intro j hj hjk hjd
        rcases Nat.lt_or_ge j (k + 1) with h | h
        · exact hdiv j hj (by omega) hjd
        · have : j = k + 1 := by omega
          subst this
          exact c.2.2.1 (Nat.mod_eq_zero_of_dvd hjd)
      have := ih (k + 1) (by omega) (by omega) hdiv2 (by omega)
      simp [is_prime_loop, c.1, this]

/-- For `n < 65535 ^ 2`, `is_prime` with fuel at least `n` returns whether `n` is prime. -/
theorem is_prime_correct_small (n fuel : Nat) (hn : n < 65535 * 65535) (hf : n ≤ fuel) :
    is_prime fuel n = Outcome.ret (decide (Nat.Prime n)) := by
  unfold is_prime
  by_cases h1 : n ≤ 1
  · have hp : ¬ Nat.Prime n := fun hp => by have := hp.two_le; omega
    simp [h1, hp]
  · simp only [h1, if_false]
    exact is_prime_loop_correct n (by omega) hn fuel 1 (by omega) (by omega)
      (fun j hj hj1 => by omega) (by omega)

/-- When every wrapped square `i * i mod 2 ^ 32` with `2 ≤ i ≤ n` stays at most `n`
the loop test never fails, so the loop can only leave through `return false`,
at the latest at `i = n`; it never returns `true`. -/
theorem is_prime_loop_wraps (n : Nat) (hn : n < U32)
    (hsq : ∀ i, 2 ≤ i → i ≤ n → (i * i) % U32 ≤ n) :
    ∀ fuel i, 2 ≤ i → i ≤ n →
      is_prime_loop fuel n i ≠ Outcome.ret true ∧
      (n - i < fuel → is_prime_loop fuel n i = Outcome.ret false) := by
  intro fuel
  induction fuel with
  | zero =>
    intro i _ _
    exact ⟨by simp [is_prime_loop], fun h => by omega⟩
  | succ f ih =>
    intro i hi hin
    rcases is_prime_step_cases n i hi hin hn with c | c | c
    · have := hsq i hi hin
      omega
    · simp [is_prime_loop, c.1]
    · obtain ⟨h1, h2⟩ := ih (i + 1) (by omega) c.2.2.2
      simp only [is_prime_loop, c.1]
      exact ⟨h1, fun h => h2 (by omega)⟩

/-- No square is congruent to `-1, -2, -3` or `-4` modulo `2 ^ 32`. -/
theorem wrapped_square_le (i : Nat) : (i * i) % U32 ≤ 4294967291 := by
  have h16 : ((i * i) % U32) % 16 = ((i % 16) * (i % 16)) % 16 := by
    rw [Nat.mod_mod_of_dvd _ (by unfold U32; decide : 16 ∣ U32), Nat.mul_mod]
  have hlt : (i * i) % U32 < U32 := Nat.mod_lt _ (by unfold U32; decide)
  have hr : i % 16 < 16 := Nat.mod_lt _ (by decide)
  generalize (i * i) % U32 = x at h16 hlt
  generalize i % 16 = r at h16 hr
  unfold U32 at hlt
  interval_cases r <;> omega

/-- What a successful run of `noDivisor` establishes. -/
theorem noDivisor_sound : ∀ k n i, noDivisor k n i = true →
    ∀ j, i ≤ j → j < i + k → n % j ≠ 0 := by
  intro k
  induction k with
  | zero => intro n i _ j h1 h2; omega
  | succ k ih =>
    intro n i h j h1 h2
    unfold noDivisor at h
    by_cases hi : n % i = 0
    · simp [hi] at h
    · simp only [hi, if_false] at h
      rcases Nat.eq_or_lt_of_le h1 with e | l
      · rw [← e]; exact hi
      · exact ih n (i + 1) h j l (by omega)

/-- What a successful run of `noDivBlocks` establishes. -/
theorem noDivBlocks_sound : ∀ b n i, noDivBlocks b n i = true →
    ∀ j, i ≤ j → j < i + 256 * b → n % j ≠ 0 := by
  intro b
  induction b with
  | zero => intro n i _ j h1 h2; omega
  | succ b ih =>
    intro n i h j h1 h2
    unfold noDivBlocks at h
    rw [Bool.and_eq_true] at h
    rcases Nat.lt_or_ge j (i + 256) with l | g
    · exact noDivisor_sound 256 n i h.1 j h1 l
    · exact ih n (i + 256) h.2 j g (by omega)

/-- Trial division of `2 ^ 32 - 5` by `2, ..., 65537` finds no divisor. -/
theorem noDivBlocks_4294967291 : noDivBlocks 256 4294967291 2 = true := by decide!

/-- The number `2 ^ 32 - 5` is prime. -/
theorem prime_4294967291 : Nat.Prime 4294967291 := by
  rw [Nat.prime_def_le_sqrt]
  refine ⟨by norm_num, fun m hm2 hms hd => ?_⟩
  have hmm : m * m ≤ 4294967291 := Nat.le_sqrt.mp hms
  have hm : m < 2 + 256 * 256 := by
    by_contra hge
    have : 65538 * 65538 ≤ m * m := Nat.mul_le_mul (by omega) (by omega)
    omega
  exact noDivBlocks_sound 256 4294967291 2 noDivBlocks_4294967291 m hm2 hm
    (Nat.mod_eq_zero_of_dvd hd)

/-! ## Facts about the UART, `atoi` and the tasks -/

/-- The model of `atoi` returns a value of type `int`. -/
theorem atoi_range (bytes : List Char) :
    -2147483648 ≤ atoi bytes ∧ atoi bytes ≤ 2147483647 := by
  unfold atoi
  split
  · constructor <;> decide
  · split_ifs <;> omega

/-- Converting an `int` to `uint32_t` gives 0 only for 0. -/
theorem to_uint32_eq_zero (x : Int) (h1 : -2147483648 ≤ x) (h2 : x ≤ 2147483647) :
    to_uint32 x = 0 ↔ x = 0 := by
  unfold to_uint32
  omega

/-- A `uint32_t` value is below `2 ^ 32`. -/
theorem to_uint32_lt (x : Int) : to_uint32 x < U32 := by
  unfold to_uint32 U32
  omega

/-- The number read by `uart_event_task` is 0 exactly when `atoi` returns 0. -/
theorem to_uint32_atoi_eq_zero (bytes : List Char) :
    to_uint32 (atoi bytes) = 0 ↔ atoi bytes = 0 :=
  to_uint32_eq_zero _ (atoi_range bytes).1 (atoi_range bytes).2

/-- No step of `bar_task` changes the event flag. -/
theorem bar_step_flag (pc pc1 : BarPc) (s s1 : Shared) (h : bar_step pc s = some (pc1, s1)) :
    s1.flag = s.flag := by
  cases pc with
  | top =>
    simp only [bar_step, Option.some.injEq, Prod.mk.injEq] at h
    rw [← h.2]
  | check c =>
    simp only [bar_step] at h
    split_ifs at h <;>
      (simp only [Option.some.injEq, Prod.mk.injEq] at h; rw [← h.2])
  | take c =>
    simp only [bar_step] at h
    split_ifs at h
    simp only [Option.some.injEq, Prod.mk.injEq] at h
    rw [← h.2]
  | emit c =>
    simp only [bar_step] at h
    cases hp : is_prime_call c with
    | none => simp [hp] at h
    | some p =>
      simp only [hp, Option.some.injEq, Prod.mk.injEq] at h
      rw [← h.2]
      simp [uart_write_bytes]

/-- A poll of `idleTask` that finds the flag cleared and an entry of at most
`MAX_NUM` in the queue. -/
theorem idleTask_poll_dispatch (u v : Nat) (rest : List Nat) (s : Shared)
    (hf : s.flag = false) (hi : s.inbox = v :: rest) (hv : v ≤ MAX_NUM) :
    idleTask_poll u s =
      some ({ pc := IdlePc.top, uReceivedValue := v },
            { s with flag := true, count := v, inbox := rest }) := by
  have h8 : uxQueueSpacesAvailable s < 8 := by
    unfold uxQueueSpacesAvailable QUEUE_LENGTH
    rw [hi, List.length_cons]
    omega
  have hc : xSemaphoreCreateCounting MAX_NUM v = some v := by
    unfold MAX_NUM at hv
    simp [xSemaphoreCreateCounting, hv, MAX_NUM]
  simp [idleTask_poll, idle_poll_from, idle_step, hf, hi, h8, hc]

/-- A poll of `idleTask` that finds the flag cleared and an entry above
`MAX_NUM` in the queue does not come back to the top of the loop. -/
theorem idleTask_poll_fail (u v : Nat) (rest : List Nat) (s : Shared)
    (hf : s.flag = false) (hi : s.inbox = v :: rest) (hv : MAX_NUM < v) :
    idleTask_poll u s = none := by
  have h8 : uxQueueSpacesAvailable s < 8 := by
    unfold uxQueueSpacesAvailable QUEUE_LENGTH
    rw [hi, List.length_cons]
    omega
  have hc : xSemaphoreCreateCounting MAX_NUM v = none := by
    simp [xSemaphoreCreateCounting, MAX_NUM]
    unfold MAX_NUM at hv
    omega
  simp [idleTask_poll, idle_poll_from, idle_step, hf, hi, h8, hc]

/-- With the flag cleared and an entry in the queue, four steps bring
`idleTask` to the call of `xSemaphoreCreateCounting` with the oldest entry as
the initial count, the flag set and that entry removed. -/
theorem idle_steps_to_create (u v : Nat) (rest : List Nat) (s : Shared)
    (hf : s.flag = false) (hi : s.inbox = v :: rest) :
    idle_steps 4 { pc := IdlePc.top, uReceivedValue := u } s =
      ({ pc := IdlePc.create, uReceivedValue := v }, { s with flag := true, inbox := rest }) := by
  have h8 : uxQueueSpacesAvailable s < 8 := by
    unfold uxQueueSpacesAvailable QUEUE_LENGTH
    rw [hi, List.length_cons]
    omega
  simp [idle_steps, idle_step, hf, hi, h8]

/-- A poll of `idleTask` that finds the flag set, or the queue empty. -/
theorem idleTask_poll_idle (u : Nat) (s : Shared) (h : s.flag = true ∨ s.inbox = []) :
    idleTask_poll u s = some ({ pc := IdlePc.top, uReceivedValue := u }, s) := by
  rcases h with h | h
  · simp [idleTask_poll, idle_poll_from, idle_step, h]
  · cases hf : s.flag <;>
      simp [idleTask_poll, idle_poll_from, idle_step, h, hf, uxQueueSpacesAvailable, QUEUE_LENGTH]

/-- When the workers take turns, a countdown from 5 writes the six expected
lines in order and ends with the flag cleared and the count 0. -/
theorem countdown_from_5_in_turn :
    (run sched_in_turn_5 (countdown_start 5)).map
      (fun s => (s.sh.flag, s.sh.count, s.sh.uart.map some)) =
      some (false, 0, expected_lines 5) ∧
    expected_lines 5 =
      [some "Bar 5 Prime\n".toList, some "Foo 4\n".toList, some "Bar 3 Prime\n".toList,
       some "Foo 2 Prime\n".toList, some "Bar 1\n".toList, some "Foo 0\n".toList] := by
  decide

/-- With the queue full, a non-zero number leaves the queue alone and the reply
sent is the 16 bytes of the string literal, its terminating NUL included. -/
theorem uart_event_task_step_full (bytes : List Char) (s : Shared)
    (hn : to_uint32 (atoi bytes) ≠ 0) (hfull : uxQueueSpacesAvailable s = 0) :
    uart_event_task_step (UartEvent.data bytes) s =
      ({ s with uart := s.uart ++ ["Currently full\n".toList ++ [NUL]] }, false) := by
  simp only [uart_event_task_step, hn, hfull, ne_eq, not_false_eq_true, if_true]
  rfl

/-- A number that is not 0 is either appended to the queue or dropped. -/
theorem uart_event_task_step_inbox (e : UartEvent) (s : Shared) :
    (uart_event_task_step e s).1.inbox = s.inbox ∨
    ∃ v, 1 ≤ v ∧ v < U32 ∧ (uart_event_task_step e s).1.inbox = s.inbox ++ [v] := by
  cases e with
  | other => left; rfl
  | data bytes =>
    by_cases hn : to_uint32 (atoi bytes) = 0
    · left
      simp [uart_event_task_step, hn]
    · by_cases hfull : uxQueueSpacesAvailable s = 0
      · left
        simp [uart_event_task_step, hn, hfull, uart_write_bytes]
      · by_cases hlen : s.inbox.length < QUEUE_LENGTH
        · right
          refine ⟨to_uint32 (atoi bytes), by omega, to_uint32_lt _, ?_⟩
          simp [uart_event_task_step, hn, hfull, xQueueSend, hlen, uart_write_bytes]
        · left
          simp [uart_event_task_step, hn, hfull, xQueueSend, hlen]

/-! ## The claims -/

/-- C2: for every `n` with `0 ≤ n ≤ MAX_NUM = 16777216`, `is_prime(n)` returns
(given at least `n` passes of fuel), and the value returned is `true` if and
only if `n` is a prime number; in particular `is_prime(0)` and `is_prime(1)` are
`false`, `is_prime(2)` and `is_prime(17)` are `true`, `is_prime(18)` is `false`. -/
theorem is_prime_correct_upto_MAX_NUM (n fuel : Nat) (hn : n ≤ MAX_NUM) (hf : n ≤ fuel) :
    (∃ b, is_prime fuel n = Outcome.ret b ∧ (b = true ↔ Nat.Prime n)) ∧
    is_prime 0 0 = Outcome.ret false ∧ is_prime 1 1 = Outcome.ret false ∧
    is_prime 2 2 = Outcome.ret true ∧ is_prime 17 17 = Outcome.ret true ∧
    is_prime 18 18 = Outcome.ret false := by
  refine ⟨⟨decide (Nat.Prime n), ?_, by simp⟩, by decide, by decide, by decide, by decide,
    by decide⟩
  exact is_prime_correct_small n fuel (by unfold MAX_NUM at hn; omega) hf

/-- C2, at `n = 17` with 17 passes of fuel. -/
theorem is_prime_correct_upto_MAX_NUM_witness :
    (∃ b, is_prime 17 17 = Outcome.ret b ∧ (b = true ↔ Nat.Prime 17)) ∧
    is_prime 0 0 = Outcome.ret false ∧ is_prime 1 1 = Outcome.ret false ∧
    is_prime 2 2 = Outcome.ret true ∧ is_prime 17 17 = Outcome.ret true ∧
    is_prime 18 18 = Outcome.ret false :=
  is_prime_correct_upto_MAX_NUM 17 17 (by decide) (by decide)

/-- C3 (the code at the failing input): `4294967291 = 2 ^ 32 - 5` is a 32-bit
value and a prime number, yet `is_prime(4294967291)` never returns `true`,
whatever the fuel: the wrapped product `i * i` never exceeds it, so the loop
runs on to `i = n` and returns `false` there. -/
theorem is_prime_wrong_at_4294967291 :
    4294967291 < U32 ∧ Nat.Prime 4294967291 ∧
    (∀ fuel, ¬ is_prime fuel 4294967291 = Outcome.ret true) ∧
    is_prime 4294967290 4294967291 = Outcome.ret false := by
  have hU : (4294967291 : Nat) < U32 := by unfold U32; omega
  have hw := is_prime_loop_wraps 4294967291 hU (fun i _ _ => wrapped_square_le i)
  refine ⟨hU, prime_4294967291, fun fuel => ?_, ?_⟩
  · have := (hw fuel 2 (by omega) (by omega)).1
    simpa [is_prime] using this
  · have := (hw 4294967290 2 (by omega) (by omega)).2 (by omega)
    simpa [is_prime] using this

/-- C10: `is_prime` terminates for every 32-bit `n`: `n - 1` passes of the loop
are always enough for it to return, and for `n ≥ 2` the loop variable at the
start of pass `k` is exactly `k + 2` (it has not wrapped) and is at most `n`. -/
theorem is_prime_terminates (n fuel : Nat) (hn : n < U32) (hf : n - 1 ≤ fuel) :
    (∃ b, is_prime fuel n = Outcome.ret b) ∧
    (2 ≤ n → ∀ k i, is_prime_var n k = some i → i = k + 2 ∧ i ≤ n ∧ i < U32) := by
  constructor
  · unfold is_prime
    by_cases h1 : n ≤ 1
    · exact ⟨false, by simp [h1]⟩
    · simp only [h1, if_false]
      exact is_prime_loop_returns n hn fuel 2 (by omega) (by omega) (by omega)
  · intro h2 k i h
    obtain ⟨a, b⟩ := is_prime_var_bound n h2 hn k i h
    exact ⟨a, b, by omega⟩

/-- C10, at the largest 32-bit value. -/
theorem is_prime_terminates_witness :
    (∃ b, is_prime 4294967294 4294967295 = Outcome.ret b) ∧
    (2 ≤ 4294967295 → ∀ k i, is_prime_var 4294967295 k = some i →
      i = k + 2 ∧ i ≤ 4294967295 ∧ i < U32) :=
  is_prime_terminates 4294967295 4294967294 (by decide) (by decide)

/-- C1 (the code at the failing input): from the start of a countdown from
`v = 1`, along `sched_bar_take_then_foo` the flag is still set, and one more
step of `foo_task` clears it; at that moment the only line written is `Foo 0`,
while the lines expected are `Bar 1`, `Foo 0`. The line `Bar 1` is missing
because `bar_task` has taken the semaphore but not yet written its line. -/
theorem countdown_from_1_misses_bar_line :
    (run sched_bar_take_then_foo (countdown_start 1)).map (fun s => s.sh.flag) = some true ∧
    (run (sched_bar_take_then_foo ++ [TaskId.foo]) (countdown_start 1)).map
      (fun s => (s.sh.flag, s.sh.uart)) = some (false, ["Foo 0\n".toList]) ∧
    expected_lines 1 = [some "Bar 1\n".toList, some "Foo 0\n".toList] := by
  decide

/-- C4 (the code at the failing input): from start-up with the entry 1 in the
queue, the schedule `sched_dispatch_then_race` reaches a state in which the flag
is cleared and `bar_task` stands before its `uart_write_bytes`; its next step
writes the line `Bar 1` while the flag is cleared. -/
theorem bar_line_written_while_flag_cleared :
    (run sched_dispatch_then_race (sys_init [1])).map
      (fun s => (s.sh.flag, s.bar, s.sh.uart)) = some (false, BarPc.emit 1, ["Foo 0\n".toList]) ∧
    (run (sched_dispatch_then_race ++ [TaskId.bar]) (sys_init [1])).map
      (fun s => (s.sh.flag, s.sh.uart)) = some (false, ["Foo 0\n".toList, "Bar 1\n".toList]) := by
  decide

/-- C5: an iteration of `foo_task` that finds the flag set and the count 0
writes exactly the 6 bytes `Foo 0\n`, takes no semaphore (the count is
unchanged, 0), and leaves the flag cleared, so that the flag test of `idleTask`
(line 127) passes afterwards; and no step of `bar_task` changes the flag. -/
theorem foo_iteration_at_zero (s : Shared) (hf : s.flag = true) (hc : s.count = 0) :
    foo_iteration s = some { s with flag := false, uart := s.uart ++ ["Foo 0\n".toList] } ∧
    ("Foo 0\n".toList).length = 6 ∧
    (∀ s1, foo_iteration s = some s1 → s1.count = 0 ∧ s1.flag = false ∧
      ∀ u, (idle_step { pc := IdlePc.top, uReceivedValue := u } s1).1.pc = IdlePc.spaces) ∧
    (∀ pc pc1 t t1, bar_step pc t = some (pc1, t1) → t1.flag = t.flag) := by
  have hp : is_prime_call 0 = some false := by decide
  have hm : foo_message 0 false = "Foo 0\n".toList := by decide
  have h : foo_iteration s =
      some { s with flag := false, uart := s.uart ++ ["Foo 0\n".toList] } := by
    simp [foo_iteration, foo_iteration_from, foo_step, hf, hc, hp, hm, uart_write_bytes, cstr]
  refine ⟨h, by decide, ?_, fun pc pc1 t t1 hb => bar_step_flag pc pc1 t t1 hb⟩
  intro s1 h1
  rw [h] at h1
  simp only [Option.some.injEq] at h1
  subst h1
  exact ⟨hc, rfl, fun u => by simp [idle_step]⟩

/-- C5, at a state with the flag set, the count 0 and two entries waiting. -/
theorem foo_iteration_at_zero_witness :
    foo_iteration { inbox := [9, 4], count := 0, flag := true, uart := [] } =
      some { inbox := [9, 4], count := 0, flag := false, uart := ["Foo 0\n".toList] } :=
  (foo_iteration_at_zero { inbox := [9, 4], count := 0, flag := true, uart := [] } rfl rfl).1

/-- C6 (the code at the failing input): with 8 entries in the queue, the input
`5` leaves the queue unchanged, and the chunk written to the UART is 16 bytes
long: the 15 bytes of `Currently full\n` followed by a NUL byte. -/
theorem currently_full_reply_has_16_bytes :
    uart_event_task_step (UartEvent.data "5".toList) full_inbox_state =
      ({ full_inbox_state with uart := ["Currently full\n".toList ++ [NUL]] }, false) ∧
    ("Currently full\n".toList ++ [NUL]).length = 16 ∧
    ("Currently full\n".toList).length = 15 := by
  decide

/-- C7 (as stated, refuted): it is not true that every value `uart_event_task`
appends to the queue is at most `MAX_NUM`: the input `16777217` is appended. -/
theorem inbox_entry_above_MAX_NUM :
    ¬ ∀ (bytes : List Char) (s : Shared) (v : Nat),
      (uart_event_task_step (UartEvent.data bytes) s).1.inbox = s.inbox ++ [v] →
      1 ≤ v ∧ v ≤ MAX_NUM := by
  intro h
  have h1 := h "16777217".toList empty_inbox_state 16777217 (by decide)
  unfold MAX_NUM at h1
  omega

/-- C7 (amended): every value `uart_event_task` places in the queue is a
non-zero `uint32_t` value, `1 ≤ v < 2 ^ 32` (it is not compared with `MAX_NUM`);
0 is never enqueued. Hence, when the queue holds only such values, it still
does after an event, a poll of `idleTask` that comes back to the top of the
loop either leaves count and queue alone or has made the oldest entry `v`, with
`1 ≤ v < 2 ^ 32`, the count, and whenever `idleTask` finds the flag cleared
and the queue non-empty, the value it passes to
`xSemaphoreCreateCounting(MAX_NUM, v)` is the oldest entry, with `1 ≤ v < 2 ^ 32`. -/
theorem inbox_entries_nonzero (e : UartEvent) (s : Shared) (u : Nat)
    (h : ∀ x ∈ s.inbox, 1 ≤ x ∧ x < U32) :
    ((uart_event_task_step e s).1.inbox = s.inbox ∨
      ∃ v, 1 ≤ v ∧ v < U32 ∧ (uart_event_task_step e s).1.inbox = s.inbox ++ [v]) ∧
    (∀ x ∈ (uart_event_task_step e s).1.inbox, 1 ≤ x ∧ x < U32) ∧
    (∀ r, idleTask_poll u s = some r →
      (r.2.count = s.count ∧ r.2.inbox = s.inbox) ∨
      (1 ≤ r.2.count ∧ r.2.count < U32 ∧ s.inbox = r.2.count :: r.2.inbox)) ∧
    (∀ v rest, s.flag = false → s.inbox = v :: rest →
      idle_steps 4 { pc := IdlePc.top, uReceivedValue := u } s =
        ({ pc := IdlePc.create, uReceivedValue := v }, { s with flag := true, inbox := rest }) ∧
      1 ≤ v ∧ v < U32) := by
  refine ⟨uart_event_task_step_inbox e s, ?_, ?_, ?_⟩
  · intro x hx
    rcases uart_event_task_step_inbox e s with h1 | ⟨v, hv1, hv2, h1⟩
    · rw [h1] at hx
      exact h x hx
    · rw [h1, List.mem_append, List.mem_singleton] at hx
      rcases hx with hx | hx
      · exact h x hx
      · rw [hx]
        exact ⟨hv1, hv2⟩
  · intro r hr
    by_cases hd : s.flag = true ∨ s.inbox = []
    · rw [idleTask_poll_idle u s hd] at hr
      simp only [Option.some.injEq] at hr
      subst hr
      exact Or.inl ⟨rfl, rfl⟩
    · rw [not_or] at hd
      obtain ⟨v, rest, hi⟩ := List.exists_cons_of_ne_nil hd.2
      have hf : s.flag = false := by simpa using hd.1
      have hv := h v (by rw [hi]; exact List.mem_cons_self v rest)
      rcases Nat.lt_or_ge MAX_NUM v with hgt | hle
      · rw [idleTask_poll_fail u v rest s hf hi hgt] at hr
        exact absurd hr (by simp)
      · rw [idleTask_poll_dispatch u v rest s hf hi hle] at hr
        simp only [Option.some.injEq] at hr
        subst hr
        exact Or.inr ⟨hv.1, hv.2, hi⟩
  · intro v rest hf hi
    have hv := h v (by rw [hi]; exact List.mem_cons_self v rest)
    exact ⟨idle_steps_to_create u v rest s hf hi, hv.1, hv.2⟩

/-- C7 (amended), at the input `16777217` with the entries 9 and 4 waiting. -/
theorem inbox_entries_nonzero_witness :
    (uart_event_task_step (UartEvent.data "16777217".toList) mid_countdown_state).1.inbox =
      mid_countdown_state.inbox ∨
    ∃ v, 1 ≤ v ∧ v < U32 ∧
      (uart_event_task_step (UartEvent.data "16777217".toList) mid_countdown_state).1.inbox =
        mid_countdown_state.inbox ++ [v] :=
  (inbox_entries_nonzero (UartEvent.data "16777217".toList) mid_countdown_state 0
    (by decide)).1

/-- C8: whatever the shared state, an input that `atoi` parses to 0 makes
`uart_event_task` call `esp_restart()` with the queue and the UART untouched,
and an input that parses to a non-zero value does not call `esp_restart()`. -/
theorem restart_iff_parsed_zero (bytes : List Char) (s : Shared) :
    (atoi bytes = 0 → uart_event_task_step (UartEvent.data bytes) s = (s, true)) ∧
    (atoi bytes ≠ 0 → (uart_event_task_step (UartEvent.data bytes) s).2 = false) := by
  constructor
  · intro h0
    have : to_uint32 (atoi bytes) = 0 := (to_uint32_atoi_eq_zero bytes).mpr h0
    simp [uart_event_task_step, this]
  · intro h0
    have hn : to_uint32 (atoi bytes) ≠ 0 := fun h => h0 ((to_uint32_atoi_eq_zero bytes).mp h)
    simp only [uart_event_task_step, hn, ne_eq, not_false_eq_true, if_true]
    split_ifs <;> rfl

/-- C8, in the middle of a countdown: the inputs `0` and `abc` restart, `7` does not. -/
theorem restart_iff_parsed_zero_witness :
    uart_event_task_step (UartEvent.data "0".toList) mid_countdown_state =
      (mid_countdown_state, true) ∧
    uart_event_task_step (UartEvent.data "abc".toList) mid_countdown_state =
      (mid_countdown_state, true) ∧
    (uart_event_task_step (UartEvent.data "7".toList) mid_countdown_state).2 = false :=
  ⟨(restart_iff_parsed_zero "0".toList mid_countdown_state).1 (by decide),
   (restart_iff_parsed_zero "abc".toList mid_countdown_state).1 (by decide),
   (restart_iff_parsed_zero "7".toList mid_countdown_state).2 (by decide)⟩

end FooBar
